import Mathlib

/-!
Shallow embedding of the CPU fused multi-head-attention operator
(contrib_ops/cpu/bert/attention.cc): input validation (AttentionBase.CheckInputs),
present-state shape computation (AttentionBase.GetPresent), weight pre-packing
(Attention.PrePack / IsPackWeightsSuccessful / UseSharedPrePackedBuffers) and the
parallel Q/K/V projection fan-out inside Attention.Compute.

Tensor shapes are lists of Int (the dimensions are int64 in the source); numeric
buffers are modelled as total functions from flat element offsets to rationals,
and packed vendor buffers as total functions from byte offsets to byte values.
-/

/-- Shape of a tensor: the list of its dimension lengths (int64 in the source). -/
abbrev Shape := List Int

/-- Reads dimension i of a shape; callers in the source only read indices that
were bounds-checked by a preceding rank test. -/
def dimAt (s : Shape) (i : Nat) : Int := s.getD i 0

/-- Operator attributes consulted by AttentionBase.CheckInputs: num_heads_,
is_unidirectional_, qkv_hidden_sizes_ and use_merged_weights_. -/
structure AttnAttrs where
  numHeads : Int
  isUnidirectional : Bool
  qkvHiddenSizes : List Int
  useMergedWeights : Bool
deriving DecidableEq, Repr

/-- The shapes of the ten optional/required operands given to CheckInputs.
An absent optional tensor (null pointer in the source) is None. -/
structure AttnOperands where
  inputShape : Shape
  weightsShape : Shape
  biasShape : Shape
  maskShape : Option Shape
  pastShape : Option Shape
  extraAddQkShape : Option Shape
  keyShape : Option Shape
  valueShape : Option Shape
  weightKeyShape : Option Shape
  weightValueShape : Option Shape
deriving DecidableEq, Repr

/-- One constructor per distinct early-return INVALID_ARGUMENT status in
AttentionBase.CheckInputs, in source order. -/
inductive AttnError where
  | pastAndExtraAddQk
  | inputRank
  | weightsRank
  | weightsDim0
  | biasRank
  | biasVsWeights
  | separateInputsMissing
  | keyRank
  | keyDim0
  | keyDim2
  | valueRank
  | valueDim0
  | valueDim1
  | valueDim2
  | weightKeyRank
  | weightKeyDim0
  | weightValueRank
  | weightValueDim0
  | qkvHiddenSizesCount
  | qkvHiddenSizesDivisibility (sz : Int)
  | qkvHiddenSizesQneK
  | biasSumMismatch
  | pastHiddenKV
  | pastRank
  | pastDim0
  | pastDim1
  | pastDim2
  | pastDim4
  | maskRank1Shape
  | maskRank2Shape
  | maskRank3Shape
  | maskRank4Shape
  | maskRank4Unidirectional
  | maskRank
  | extraRank
  | extraDim0
  | extraDim1
  | extraDim2
  | extraDim3
deriving DecidableEq, Repr

/-- Errors whose status message names the bias operand
(messages starting with "Input 'bias' ..."). -/
def namesBias : AttnError → Bool
  | .biasRank => true
  | .biasVsWeights => true
  | .biasSumMismatch => true
  | _ => false

/-- The normalized result of a successful CheckInputs run: the resolved hidden
sizes, sequence lengths, and the possibly-normalized mask reference
(CheckInputs takes mask_index by mutable reference and may set it to null). -/
structure AttnDesc where
  hiddenSizeQ : Int
  hiddenSizeK : Int
  hiddenSizeV : Int
  targetSequenceLength : Int
  totalSequenceLength : Int
  maskIndex : Option Shape
deriving DecidableEq, Repr

/-- Checks on input, weights and bias shapes that precede hidden-size
resolution (attention.cc lines 127-155). -/
def checkCommonShapes (inp : AttnOperands) : Except AttnError Unit :=
  if inp.inputShape.length ≠ 3 then .error .inputRank
  else if inp.weightsShape.length ≠ 2 then .error .weightsRank
  else if dimAt inp.weightsShape 0 ≠ dimAt inp.inputShape 2 then .error .weightsDim0
  else if inp.biasShape.length ≠ 1 then .error .biasRank
  else if dimAt inp.biasShape 0 ≠ dimAt inp.weightsShape 1 then .error .biasVsWeights
  else .ok ()

/-- Resolution of (hidden_size_q, hidden_size_k, hidden_size_v,
target_sequence_length), attention.cc lines 157-247.  The source initializes
hidden_size_v from itself (line 160: a self-initialization, so the variable
keeps an indeterminate value); the parameter uninitHiddenSizeV stands for that
indeterminate initial value. -/
def resolveHiddenSizes (attrs : AttnAttrs) (inp : AttnOperands) (uninitHiddenSizeV : Int) :
    Except AttnError (Int × Int × Int × Int) :=
  let batchSize := dimAt inp.inputShape 0
  let sequenceLength := dimAt inp.inputShape 1
  let inputHiddenSize := dimAt inp.inputShape 2
  let hiddenSizeQ := Int.tdiv (dimAt inp.biasShape 0) 3
  let hiddenSizeK := hiddenSizeQ
  let hiddenSizeV := uninitHiddenSizeV
  if attrs.useMergedWeights = false then
    match inp.keyShape, inp.valueShape, inp.weightKeyShape, inp.weightValueShape with
    | some keyDims, some valueDims, some weightKeyDims, some weightValueDims =>
      if keyDims.length ≠ 3 then .error .keyRank
      else if dimAt keyDims 0 ≠ batchSize then .error .keyDim0
      else if dimAt keyDims 2 ≠ inputHiddenSize then .error .keyDim2
      else if valueDims.length ≠ 3 then .error .valueRank
      else if dimAt valueDims 0 ≠ batchSize then .error .valueDim0
      else if dimAt valueDims 1 ≠ dimAt keyDims 1 then .error .valueDim1
      else if dimAt valueDims 2 ≠ inputHiddenSize then .error .valueDim2
      else if weightKeyDims.length ≠ 2 then .error .weightKeyRank
      else if dimAt weightKeyDims 0 ≠ inputHiddenSize then .error .weightKeyDim0
      else if weightValueDims.length ≠ 2 then .error .weightValueRank
      else if dimAt weightValueDims 0 ≠ inputHiddenSize then .error .weightValueDim0
      else .ok (dimAt inp.weightsShape 1, dimAt weightKeyDims 1, dimAt weightValueDims 1,
                dimAt keyDims 1)
    | _, _, _, _ => .error .separateInputsMissing
  else
    if attrs.qkvHiddenSizes.length ≠ 0 then
      if attrs.qkvHiddenSizes.length ≠ 3 then .error .qkvHiddenSizesCount
      else
        match attrs.qkvHiddenSizes.find? (fun sz => Int.tmod sz attrs.numHeads != 0) with
        | some sz => .error (.qkvHiddenSizesDivisibility sz)
        | none =>
          let hiddenSizeQ := dimAt attrs.qkvHiddenSizes 0
          let hiddenSizeK := dimAt attrs.qkvHiddenSizes 1
          let hiddenSizeV := dimAt attrs.qkvHiddenSizes 2
          if hiddenSizeQ ≠ hiddenSizeK then .error .qkvHiddenSizesQneK
          else .ok (hiddenSizeQ, hiddenSizeK, hiddenSizeV, sequenceLength)
    else .ok (hiddenSizeQ, hiddenSizeK, hiddenSizeV, sequenceLength)

/-- Validation of the optional past tensor and accumulation of
past_sequence_length into total_sequence_length (attention.cc lines 255-287). -/
def checkPast (batchSize numHeads hiddenSizeK hiddenSizeV targetSequenceLength : Int)
    (past : Option Shape) : Except AttnError Int :=
  match past with
  | none => .ok targetSequenceLength
  | some pastDims =>
    if hiddenSizeK ≠ hiddenSizeV then .error .pastHiddenKV
    else if pastDims.length ≠ 5 then .error .pastRank
    else if dimAt pastDims 0 ≠ 2 then .error .pastDim0
    else if dimAt pastDims 1 ≠ batchSize then .error .pastDim1
    else if dimAt pastDims 2 ≠ numHeads then .error .pastDim2
    else if dimAt pastDims 4 ≠ Int.tdiv hiddenSizeK numHeads then .error .pastDim4
    else .ok (targetSequenceLength + dimAt pastDims 3)

/-- Validation of the optional mask tensor by rank (attention.cc lines 289-333).
A 2D mask that does not match [batch, total] exactly but has shape
[batch, 1] or [1, 1] is normalized to the null mask (the broadcast-collapse
case); the returned option is the new value of the mask_index reference. -/
def checkMask (batchSize sequenceLength totalSequenceLength : Int)
    (isUnidirectional : Bool) (maskIndex : Option Shape) :
    Except AttnError (Option Shape) :=
  match maskIndex with
  | none => .ok none
  | some maskDims =>
    if maskDims.length = 1 then
      if dimAt maskDims 0 ≠ batchSize ∧ dimAt maskDims 0 ≠ 2 * batchSize then
        .error .maskRank1Shape
      else .ok (some maskDims)
    else if maskDims.length = 2 then
      if dimAt maskDims 0 ≠ batchSize ∨ dimAt maskDims 1 ≠ totalSequenceLength then
        if (dimAt maskDims 0 = batchSize ∨ dimAt maskDims 0 = 1) ∧ dimAt maskDims 1 = 1 then
          .ok none
        else .error .maskRank2Shape
      else .ok (some maskDims)
    else if maskDims.length = 3 then
      if dimAt maskDims 0 ≠ batchSize ∨ dimAt maskDims 1 ≠ sequenceLength ∨
          dimAt maskDims 2 ≠ totalSequenceLength then
        .error .maskRank3Shape
      else .ok (some maskDims)
    else if maskDims.length = 4 then
      if dimAt maskDims 0 ≠ batchSize ∨ dimAt maskDims 1 ≠ 1 ∨
          dimAt maskDims 2 ≠ dimAt maskDims 3 ∨ dimAt maskDims 2 < totalSequenceLength then
        .error .maskRank4Shape
      else if isUnidirectional = true then .error .maskRank4Unidirectional
      else .ok (some maskDims)
    else .error .maskRank

/-- Validation of the optional extra_add_qk tensor (attention.cc lines 335-364). -/
def checkExtraAddQk (batchSize numHeads sequenceLength : Int) (extra : Option Shape) :
    Except AttnError Unit :=
  match extra with
  | none => .ok ()
  | some extraDims =>
    if extraDims.length ≠ 4 then .error .extraRank
    else if dimAt extraDims 0 ≠ batchSize then .error .extraDim0
    else if dimAt extraDims 1 ≠ numHeads then .error .extraDim1
    else if dimAt extraDims 2 ≠ sequenceLength then .error .extraDim2
    else if dimAt extraDims 3 ≠ sequenceLength then .error .extraDim3
    else .ok ()

/-- AttentionBase.CheckInputs (attention.cc lines 61-367), as a pure function
from the operand shapes and attributes to either the first INVALID_ARGUMENT
status produced or the normalized descriptor.  uninitHiddenSizeV models the
indeterminate value of the self-initialized hidden_size_v variable
(attention.cc line 160). -/
def checkInputs (attrs : AttnAttrs) (inp : AttnOperands) (uninitHiddenSizeV : Int) :
    Except AttnError AttnDesc :=
  if inp.pastShape.isSome && inp.extraAddQkShape.isSome then .error .pastAndExtraAddQk
  else match checkCommonShapes inp with
  | .error e => .error e
  | .ok _ =>
    match resolveHiddenSizes attrs inp uninitHiddenSizeV with
    | .error e => .error e
    | .ok (hiddenSizeQ, hiddenSizeK, hiddenSizeV, targetSequenceLength) =>
      if dimAt inp.biasShape 0 ≠ hiddenSizeQ + hiddenSizeK + hiddenSizeV then
        .error .biasSumMismatch
      else match checkPast (dimAt inp.inputShape 0) attrs.numHeads hiddenSizeK hiddenSizeV
          targetSequenceLength inp.pastShape with
      | .error e => .error e
      | .ok totalSequenceLength =>
        match checkMask (dimAt inp.inputShape 0) (dimAt inp.inputShape 1) totalSequenceLength
            attrs.isUnidirectional inp.maskShape with
        | .error e => .error e
        | .ok maskIndex =>
          match checkExtraAddQk (dimAt inp.inputShape 0) attrs.numHeads (dimAt inp.inputShape 1)
              inp.extraAddQkShape with
          | .error e => .error e
          | .ok _ =>
            .ok ⟨hiddenSizeQ, hiddenSizeK, hiddenSizeV, targetSequenceLength,
                 totalSequenceLength, maskIndex⟩

/-! Helper lemmas about checkInputs, shared by several claim theorems. -/

/-- On every successful run the resolved hidden sizes in the returned
descriptor sum to the bias length, because of the guard at attention.cc
line 250. -/
theorem checkInputs_ok_bias_sum (attrs : AttnAttrs) (inp : AttnOperands) (u : Int)
    (desc : AttnDesc) (h : checkInputs attrs inp u = .ok desc) :
    desc.hiddenSizeQ + desc.hiddenSizeK + desc.hiddenSizeV = dimAt inp.biasShape 0 := by
  unfold checkInputs at h
  repeat' split at h
  any_goals exact Except.noConfusion h
  rw [Except.ok.injEq] at h
  subst h
  dsimp only
  simp_all only [ne_eq, Decidable.not_not]

/-- The broadcast-collapse normalization condition of attention.cc
lines 296-308, stated as a standalone function: the mask reference is replaced
by the null mask exactly when the mask is rank 2, does not already match
[batch, total_sequence_length], and has shape [batch, 1] or [1, 1]; otherwise
it is left unchanged. -/
def maskBroadcastCollapse (batchSize totalSequenceLength : Int) (m : Option Shape) :
    Option Shape :=
  match m with
  | none => none
  | some maskDims =>
    if maskDims.length = 2 ∧
        (dimAt maskDims 0 ≠ batchSize ∨ dimAt maskDims 1 ≠ totalSequenceLength) ∧
        (dimAt maskDims 0 = batchSize ∨ dimAt maskDims 0 = 1) ∧ dimAt maskDims 1 = 1
    then none else some maskDims

/-- Characterization of the mask value returned by a successful checkMask run:
it is exactly the broadcast-collapse normalization of the supplied mask. -/
theorem checkMask_ok_normalizes (batchSize sequenceLength totalSequenceLength : Int)
    (uni : Bool) (m m2 : Option Shape)
    (h : checkMask batchSize sequenceLength totalSequenceLength uni m = .ok m2) :
    m2 = maskBroadcastCollapse batchSize totalSequenceLength m := by
  unfold maskBroadcastCollapse
  cases m with
  | none => simpa [checkMask] using h.symm
  | some maskDims =>
    unfold checkMask at h
    repeat' split at h
    any_goals exact Except.noConfusion h
    all_goals rw [Except.ok.injEq] at h
    all_goals subst h
    all_goals simp_all

/-- On every successful run the descriptor's mask field is exactly the value
returned by the checkMask phase, evaluated at the final
total_sequence_length. -/
theorem checkInputs_ok_mask (attrs : AttnAttrs) (inp : AttnOperands) (u : Int)
    (desc : AttnDesc) (h : checkInputs attrs inp u = .ok desc) :
    checkMask (dimAt inp.inputShape 0) (dimAt inp.inputShape 1) desc.totalSequenceLength
      attrs.isUnidirectional inp.maskShape = .ok desc.maskIndex := by
  unfold checkInputs at h
  repeat' split at h
  any_goals exact Except.noConfusion h
  rw [Except.ok.injEq] at h
  subst h
  dsimp only
  assumption

/-! Claim theorems about CheckInputs. -/

/-- C1: the claim says that with merged weights and no qkv_hidden_sizes
attribute CheckInputs resolves hidden_q = hidden_k = hidden_v = bias_length/3
(so bias length 12 gives 4/4/4).  The source instead initializes hidden_size_v
from itself (attention.cc line 160), so hidden_size_v keeps an indeterminate
value: on the claim's own scenario (batch 1, seq 2, hidden_in 4, merged weight
[4,12], bias 12) the outcome depends on that indeterminate value — validation
fails with the bias-sum error when the stale value is 0, and only an
accidental stale value of 4 produces the descriptor the claim requires. -/
theorem c1_hidden_size_v_selfinit_divergence :
    checkInputs ⟨2, false, [], true⟩
        ⟨[1, 2, 4], [4, 12], [12], none, none, none, none, none, none, none⟩ 0
      = .error .biasSumMismatch
    ∧ (checkInputs ⟨2, false, [], true⟩
        ⟨[1, 2, 4], [4, 12], [12], none, none, none, none, none, none, none⟩ 4).map
          AttnDesc.hiddenSizeV
      = .ok 4 := by
  exact ⟨rfl, rfl⟩

/-- C5 (counterexample): the claim states that every 2D mask of shape
[batch, 1] or [1, 1] is normalized to the null mask.  With batch 1,
sequence_length 1 and no past, total_sequence_length is 1, so a [1, 1] mask
already matches [batch, total_sequence_length] exactly and CheckInputs keeps
it: validation succeeds with the mask still present, refuting the claim as
stated. -/
theorem c5_counterexample_mask_kept :
    checkInputs ⟨1, false, [2, 2, 2], true⟩
        ⟨[1, 1, 2], [2, 6], [6], some [1, 1], none, none, none, none, none, none⟩ 0
      = .ok ⟨2, 2, 2, 1, 1, some [1, 1]⟩ := by
  exact rfl

/-- C5 (amended): CheckInputs never mutates any operand except the mask
reference, and the mask is silently normalized to the null mask exactly when
it is 2D, does not already match [batch, total_sequence_length], and has shape
[batch, 1] or [1, 1]; in particular a [batch, 1] or [1, 1] mask with
total_sequence_length greater than 1 is dropped and validation succeeds (shown
here on a concrete run), while such a mask with total_sequence_length equal
to 1 is kept. -/
theorem c5_mask_normalization_amended :
    (∀ attrs inp u desc, checkInputs attrs inp u = .ok desc →
      desc.maskIndex
        = maskBroadcastCollapse (dimAt inp.inputShape 0) desc.totalSequenceLength
            inp.maskShape)
    ∧ checkInputs ⟨1, false, [2, 2, 2], true⟩
        ⟨[1, 2, 2], [2, 6], [6], some [1, 1], none, none, none, none, none, none⟩ 0
      = .ok ⟨2, 2, 2, 2, 2, none⟩ := by
  refine ⟨fun attrs inp u desc h => ?_, rfl⟩
  exact checkMask_ok_normalizes _ _ _ _ _ _ (checkInputs_ok_mask attrs inp u desc h)

/-- Witness for C5 (amended), instantiated at the broadcast-collapse run of the
amended theorem. -/
theorem c5_mask_normalization_amended_witness :
    (AttnDesc.mk 2 2 2 2 2 none).maskIndex
      = maskBroadcastCollapse (dimAt ([1, 2, 2] : Shape) 0)
          (AttnDesc.mk 2 2 2 2 2 none).totalSequenceLength (some [1, 1]) :=
  c5_mask_normalization_amended.1 ⟨1, false, [2, 2, 2], true⟩
    ⟨[1, 2, 2], [2, 6], [6], some [1, 1], none, none, none, none, none, none⟩ 0
    ⟨2, 2, 2, 2, 2, none⟩ (by rfl)

/-- C6: whenever both a past tensor and an extra_add_qk tensor are supplied,
CheckInputs fails with the dedicated combined-inputs error
(attention.cc lines 122-125), regardless of every other operand and attribute:
that check is the first statement of the function, so it fires before any
other validation. -/
theorem c6_past_with_extra_add_qk_rejected (attrs : AttnAttrs) (inp : AttnOperands)
    (u : Int) (hp : inp.pastShape.isSome = true) (he : inp.extraAddQkShape.isSome = true) :
    checkInputs attrs inp u = .error .pastAndExtraAddQk := by
  simp [checkInputs, hp, he]

/-- Witness for C6 at a concrete configuration supplying both past and
extra_add_qk. -/
theorem c6_past_with_extra_add_qk_rejected_witness :
    checkInputs ⟨2, false, [], true⟩
        ⟨[1, 2, 4], [4, 12], [12], none, some [2, 1, 2, 3, 2], some [1, 2, 2, 2],
         none, none, none, none⟩ 0
      = .error .pastAndExtraAddQk :=
  c6_past_with_extra_add_qk_rejected ⟨2, false, [], true⟩
    ⟨[1, 2, 4], [4, 12], [12], none, some [2, 1, 2, 3, 2], some [1, 2, 2, 2],
     none, none, none, none⟩ 0 rfl rfl

/-- C7: every configuration that passes validation satisfies
hidden_q + hidden_k + hidden_v = bias length, and the mismatched example
configuration (qkv_hidden_sizes [64, 64, 64] with bias length 300) fails with
the bias-sum error, whose status message names the bias operand. -/
theorem c7_bias_sum_validation :
    (∀ attrs inp u desc, checkInputs attrs inp u = .ok desc →
        desc.hiddenSizeQ + desc.hiddenSizeK + desc.hiddenSizeV = dimAt inp.biasShape 0)
    ∧ checkInputs ⟨8, false, [64, 64, 64], true⟩
        ⟨[1, 1, 10], [10, 300], [300], none, none, none, none, none, none, none⟩ 0
      = .error .biasSumMismatch
    ∧ namesBias .biasSumMismatch = true :=
  ⟨checkInputs_ok_bias_sum, rfl, rfl⟩

/-- Witness for C7 at a concrete passing configuration with bias length 6 and
resolved hidden sizes 2, 2, 2. -/
theorem c7_bias_sum_validation_witness :
    (AttnDesc.mk 2 2 2 1 1 (some [1, 1])).hiddenSizeQ
      + (AttnDesc.mk 2 2 2 1 1 (some [1, 1])).hiddenSizeK
      + (AttnDesc.mk 2 2 2 1 1 (some [1, 1])).hiddenSizeV
      = dimAt ([6] : Shape) 0 :=
  c7_bias_sum_validation.1 ⟨1, false, [2, 2, 2], true⟩
    ⟨[1, 1, 2], [2, 6], [6], some [1, 1], none, none, none, none, none, none⟩ 0
    ⟨2, 2, 2, 1, 1, some [1, 1]⟩ (by rfl)

/-! AttentionBase.GetPresent (attention.cc lines 384-408). -/

/-- The failure mode of GetPresent is an ORT_THROW — a fatal exception, a
different mechanism from the recoverable INVALID_ARGUMENT Status values of
CheckInputs — hence its own error type. -/
inductive HostContractViolation where
  | expectPresentWhenPastGiven
deriving DecidableEq, Repr

/-- AttentionBase.GetPresent: builds the present-state dimensions
[2, batch, num_heads, sequence_length, head_size], adds past_dims[3] into
dimension 3 when a past tensor is given, then requests output slot 1 from the
context; presentBindingAvailable models whether that output binding yields a
buffer.  A missing present output while past is supplied triggers the fatal
throw. -/
def getPresent (numHeads : Int) (past : Option Shape)
    (batchSize headSize sequenceLength : Int) (presentBindingAvailable : Bool) :
    Except HostContractViolation (Shape × Bool) :=
  let presentDims : Shape := [2, batchSize, numHeads, sequenceLength, headSize]
  let presentDims := match past with
    | some pastDims => presentDims.set 3 (dimAt presentDims 3 + dimAt pastDims 3)
    | none => presentDims
  if past.isSome && !presentBindingAvailable then .error .expectPresentWhenPastGiven
  else .ok (presentDims, presentBindingAvailable)

/-- Dimension 3 of the past tensor when present, 0 otherwise (the value the
call site of GetPresent starts from for past_sequence_length). -/
def pastSequenceLengthOf : Option Shape → Int
  | some pastDims => dimAt pastDims 3
  | none => 0

/-- C8: GetPresent computes the present-state shape
[2, batch, num_heads, past_sequence_length + sequence_length, head_size]
(with past_sequence_length 0 when no past is supplied) and aborts with the
fatal host-contract throw exactly when a past tensor was supplied but the
output binding yields no present buffer; in every other case it returns the
shape and the binding unchanged. -/
theorem c8_get_present_shape_and_fatal_abort (numHeads : Int) (past : Option Shape)
    (batchSize headSize sequenceLength : Int) (presentBindingAvailable : Bool) :
    getPresent numHeads past batchSize headSize sequenceLength presentBindingAvailable
      = if past.isSome = true ∧ presentBindingAvailable = false
        then .error .expectPresentWhenPastGiven
        else .ok ([2, batchSize, numHeads,
                   pastSequenceLengthOf past + sequenceLength, headSize],
                  presentBindingAvailable) := by
  cases past <;> cases presentBindingAvailable <;>
    (simp [getPresent, pastSequenceLengthOf, dimAt, List.set]; try ring_nf)

/-! Attention.PrePack, IsPackWeightsSuccessful, FreePackedWeights and
UseSharedPrePackedBuffers (attention.cc lines 18-22 and 415-540). -/

/-- A packed-weight buffer: byte contents by byte offset. -/
abbrev ByteBuf := Nat → Nat

/-- The memset(packed_weights_data, 0, packed_weights_data_size) at
attention.cc line 434: zeroes the whole allocated range, leaving bytes beyond
it untouched. -/
def memsetZero (size : Nat) (mem : ByteBuf) : ByteBuf :=
  fun p => if p < size then 0 else mem p

/-- One MlasGemmPackB call: writes the vendor output for one head into that
head's sub-buffer; bytes of the sub-buffer the routine does not write (layout
padding) keep their previous contents.  packOut gives, per byte offset inside
the sub-buffer, the byte the vendor routine writes there, or none. -/
def packOneHead (packOut : Nat → Option Nat) (dstOffset size : Nat) (mem : ByteBuf) :
    ByteBuf :=
  fun p =>
    if dstOffset ≤ p ∧ p < dstOffset + size then
      match packOut (p - dstOffset) with
      | some b => b
      | none => mem p
    else mem p

/-- The allocate / memset / per-head pack loop of IsPackWeightsSuccessful
(attention.cc lines 428-442): the allocator returns arbitrary junk bytes, the
whole packb_size * num_heads range is zeroed, then head i is packed at offset
i * packb_size. -/
def packAllHeads (packbSize numHeads : Nat) (packOut : Nat → Nat → Option Nat)
    (junk : ByteBuf) : ByteBuf :=
  (List.range numHeads).foldl
    (fun mem i => packOneHead (packOut i) (i * packbSize) packbSize mem)
    (memsetZero (packbSize * numHeads) junk)

/-- Persistent kernel state touched by PrePack / UseSharedPrePackedBuffers and
read by Compute: the three packed buffers (packed_weights_[3]), their per-head
packed sizes (packed_weights_size_[3]), the is_prepack_ flag and the recorded
weight shape (attention.cc lines 44-47). -/
structure AttnOpState where
  packedWeights : Nat → Option ByteBuf
  packedWeightsSize : Nat → Nat
  isPrepack : Bool
  weightShape : Shape

/-- A freshly constructed kernel: empty buffer array, zero sizes,
is_prepack_ = false. -/
def initAttnOpState : AttnOpState :=
  ⟨fun _ => none, fun _ => 0, false, []⟩

/-- FreePackedWeights (attention.cc lines 18-22): resets the first arraySize
entries of the packed-buffer array. -/
def freePackedWeights (packedWeights : Nat → Option ByteBuf) (arraySize : Nat) :
    Nat → Option ByteBuf :=
  fun idx => if idx < arraySize then none else packedWeights idx

/-- The vendor routines used while packing, as abstract deterministic
functions: packbSizeFn models MlasGemmPackBSize(head_size, input_hidden_size);
packOutFn models the bytes MlasGemmPackB writes for branch x, head i — a pure
function of that (branch, head) slice of the weight content. -/
structure PackEnv where
  packbSizeFn : Nat → Nat → Nat
  packOutFn : Nat → Nat → Nat → Option Nat

/-- Result of one IsPackWeightsSuccessful call: the updated kernel state, the
buffers pushed so far onto the shareable prepacked_weights record, and the
boolean return value. -/
structure PackStep where
  state : AttnOpState
  sharedBuffers : List ByteBuf
  success : Bool

/-- Attention.IsPackWeightsSuccessful (attention.cc lines 415-449) for branch
qkvIndex: fails when the vendor size query reports 0; otherwise allocates,
zeroes and packs the per-head buffer, stores it and its per-head size on the
kernel, and — when a shareable record was requested — moves the buffer out of
the kernel into the record. -/
def isPackWeightsSuccessful (env : PackEnv) (junk : ByteBuf) (sharedRequested : Bool)
    (qkvIndex headSize inputHiddenSize numHeads : Nat)
    (st : AttnOpState) (shared : List ByteBuf) : PackStep :=
  let packbSize := env.packbSizeFn headSize inputHiddenSize
  if packbSize = 0 then ⟨st, shared, false⟩
  else
    let packedData := packAllHeads packbSize numHeads (env.packOutFn qkvIndex) junk
    let st1 : AttnOpState :=
      { st with
        packedWeights := fun idx => if idx = qkvIndex then some packedData
                                    else st.packedWeights idx
        packedWeightsSize := fun idx => if idx = qkvIndex then packbSize
                                        else st.packedWeightsSize idx }
    if sharedRequested then
      ⟨{ st1 with packedWeights := fun idx => if idx = qkvIndex then none
                                              else st1.packedWeights idx },
       shared ++ [packedData], true⟩
    else ⟨st1, shared, true⟩

/-- Per-branch hidden-size resolution inside PrePack (attention.cc lines
479-502): the explicit attribute when present (no-op on zero or non-divisible
sizes), otherwise an equal three-way split of the weight column count (no-op
on a non-divisible split). -/
def prePackResolveSizes (qkvHiddenSizesAttr : List Int) (numHeads weightsDim1 : Nat) :
    Option (Nat × Nat × Nat) :=
  if qkvHiddenSizesAttr.length ≠ 0 then
    let qHiddenSize := (qkvHiddenSizesAttr.getD 0 0).toNat
    let kHiddenSize := (qkvHiddenSizesAttr.getD 1 0).toNat
    let vHiddenSize := (qkvHiddenSizesAttr.getD 2 0).toNat
    if qHiddenSize = 0 ∨ kHiddenSize = 0 ∨ vHiddenSize = 0 then none
    else if qHiddenSize % numHeads ≠ 0 ∨ kHiddenSize % numHeads ≠ 0 ∨
        vHiddenSize % numHeads ≠ 0 then none
    else some (qHiddenSize, kHiddenSize, vHiddenSize)
  else
    let hiddenSize := weightsDim1 / 3
    if hiddenSize % numHeads ≠ 0 then none
    else some (hiddenSize, hiddenSize, hiddenSize)

/-- Aggregate result of PrePack: the updated kernel state, the is_packed out
parameter, the buffers pushed onto the shareable record, and the returned
status (Status::OK on every path of the source). -/
structure PrePackResult where
  state : AttnOpState
  isPacked : Bool
  sharedBuffers : List ByteBuf
  statusOk : Bool

/-- Attention.PrePack (attention.cc lines 451-524).  sharedRequested is true
when the caller passed a non-null prepacked_weights record.  On any branch
failure the source frees the first qkv_hidden_sizes_.size() entries of the
packed-buffer array (when no shareable record was requested) and returns with
is_packed = false; on full success it sets is_packed and is_prepack_. -/
def prePack (env : PackEnv) (junk : ByteBuf) (numHeads : Nat)
    (qkvHiddenSizesAttr : List Int) (weightsShape : Shape) (inputIdx : Nat)
    (sharedRequested : Bool) (st : AttnOpState) : PrePackResult :=
  if inputIdx ≠ 1 then ⟨st, false, [], true⟩
  else
    let st := { st with weightShape := weightsShape }
    if weightsShape.length ≠ 2 then ⟨st, false, [], true⟩
    else
      let inputHiddenSize := (dimAt weightsShape 0).toNat
      match prePackResolveSizes qkvHiddenSizesAttr numHeads (dimAt weightsShape 1).toNat with
      | none => ⟨st, false, [], true⟩
      | some (qHiddenSize, kHiddenSize, vHiddenSize) =>
        let headSize0 := qHiddenSize / numHeads
        let headSize1 := kHiddenSize / numHeads
        let headSize2 := vHiddenSize / numHeads
        let fail := fun (st2 : AttnOpState) (shared : List ByteBuf) =>
          if !sharedRequested then
            (⟨{ st2 with packedWeights :=
                  freePackedWeights st2.packedWeights qkvHiddenSizesAttr.length },
               false, shared, true⟩ : PrePackResult)
          else ⟨st2, false, shared, true⟩
        let step0 := isPackWeightsSuccessful env junk sharedRequested 0 headSize0
          inputHiddenSize numHeads st []
        if !step0.success then fail step0.state step0.sharedBuffers
        else
          let step1 := isPackWeightsSuccessful env junk sharedRequested 1 headSize1
            inputHiddenSize numHeads step0.state step0.sharedBuffers
          if !step1.success then fail step1.state step1.sharedBuffers
          else
            let step2 := isPackWeightsSuccessful env junk sharedRequested 2 headSize2
              inputHiddenSize numHeads step1.state step1.sharedBuffers
            if !step2.success then fail step2.state step2.sharedBuffers
            else ⟨{ step2.state with isPrepack := true }, true, step2.sharedBuffers, true⟩

/-- Attention.UseSharedPrePackedBuffers (attention.cc lines 526-540): for the
weight slot, adopts the three externally supplied buffers as the packed
buffers and reports used_shared_buffers = true; it touches neither is_prepack_
nor packed_weights_size_. -/
def useSharedPrePackedBuffers (st : AttnOpState) (prepackedBuffers : List ByteBuf)
    (inputIdx : Nat) : AttnOpState × Bool :=
  if 1 ≠ inputIdx then (st, false)
  else
    ({ st with packedWeights := fun idx =>
        if idx < 3 then prepackedBuffers[idx]? else st.packedWeights idx },
     true)

/-- Line 545 of Attention.Compute: the raw weight input is fetched only when
is_prepack_ is false; in packed mode the weight pointer stays null and the
projection later takes the packed branch. -/
def computeWeightsArg {w : Type} (st : AttnOpState) (weightsInput : w) : Option w :=
  if st.isPrepack then none else some weightsInput

/-! Helper lemmas about IsPackWeightsSuccessful. -/

/-- IsPackWeightsSuccessful never touches the is_prepack_ flag. -/
theorem isPack_isPrepack (env : PackEnv) (junk : ByteBuf) (sh : Bool)
    (q hs d n : Nat) (st : AttnOpState) (l : List ByteBuf) :
    (isPackWeightsSuccessful env junk sh q hs d n st l).state.isPrepack = st.isPrepack := by
  simp only [isPackWeightsSuccessful]
  split
  · rfl
  · split <;> rfl

/-- IsPackWeightsSuccessful succeeds exactly when the vendor size query is
nonzero — independently of the incoming state, the shared flag and the
allocator junk. -/
theorem isPack_success_eq (env : PackEnv) (junk : ByteBuf) (sh : Bool)
    (q hs d n : Nat) (st : AttnOpState) (l : List ByteBuf) :
    (isPackWeightsSuccessful env junk sh q hs d n st l).success
      = !(env.packbSizeFn hs d == 0) := by
  simp only [isPackWeightsSuccessful]
  split
  · rename_i h; simp [h]
  · rename_i h; split <;> simp [h]

/-- The per-head packed sizes recorded by IsPackWeightsSuccessful depend only
on the vendor size query, never on the allocator junk. -/
theorem isPack_sizes (env : PackEnv) (junk : ByteBuf) (sh : Bool)
    (q hs d n : Nat) (st : AttnOpState) (l : List ByteBuf) :
    (isPackWeightsSuccessful env junk sh q hs d n st l).state.packedWeightsSize
      = if env.packbSizeFn hs d = 0 then st.packedWeightsSize
        else fun idx => if idx = q then env.packbSizeFn hs d
                        else st.packedWeightsSize idx := by
  simp only [isPackWeightsSuccessful]
  split
  · rename_i h; simp [h]
  · rename_i h; split <;> simp [h]

/-- C10: adopting shared pre-packed buffers via UseSharedPrePackedBuffers
stores them as the packed buffers and reports used_shared_buffers = true, but
leaves is_prepack_ false on a fresh kernel, so Compute still fetches the raw
weight input (computeWeightsArg returns it) and takes the unpacked path; the
is_prepack_ flag resulting from a PrePack run on a fresh kernel always equals
its is_packed result, i.e. the flag becomes true only through a fully
successful PrePack. -/
theorem c10_shared_buffers_leave_unpacked_path (bufs : List ByteBuf) (wIn : Shape)
    (env : PackEnv) (junk : ByteBuf) (numHeads : Nat) (attr : List Int) (ws : Shape)
    (inputIdx : Nat) (shared : Bool) :
    (useSharedPrePackedBuffers initAttnOpState bufs 1).2 = true
    ∧ (useSharedPrePackedBuffers initAttnOpState bufs 1).1.isPrepack = false
    ∧ (useSharedPrePackedBuffers initAttnOpState bufs 1).1.packedWeights 0 = bufs[0]?
    ∧ (useSharedPrePackedBuffers initAttnOpState bufs 1).1.packedWeights 1 = bufs[1]?
    ∧ (useSharedPrePackedBuffers initAttnOpState bufs 1).1.packedWeights 2 = bufs[2]?
    ∧ computeWeightsArg (useSharedPrePackedBuffers initAttnOpState bufs 1).1 wIn = some wIn
    ∧ (prePack env junk numHeads attr ws inputIdx shared initAttnOpState).state.isPrepack
        = (prePack env junk numHeads attr ws inputIdx shared initAttnOpState).isPacked := by
  refine ⟨rfl, rfl, rfl, rfl, rfl, rfl, ?_⟩
  simp only [prePack]
  repeat' split
  all_goals simp_all [isPack_isPrepack, initAttnOpState]

/-- C4: when hidden-size resolution succeeds but the vendor size function
reports 0 for one of the three branches, and no shareable record was
requested, PrePack returns with all three packed-buffer slots empty,
is_packed = false, is_prepack_ = false and Status::OK, so the kernel falls
back to the unpacked path with no retained packed state.  (When the
qkv_hidden_sizes attribute is absent the three head sizes coincide, so the
first branch already fails and nothing was allocated; when the attribute has
its three elements, FreePackedWeights resets all three slots.) -/
theorem c4_prepack_failure_cleanup (env : PackEnv) (junk : ByteBuf) (numHeads : Nat)
    (attr : List Int) (ws : Shape) (q k v : Nat)
    (hlen : attr.length = 0 ∨ attr.length = 3)
    (hws : ws.length = 2)
    (hres : prePackResolveSizes attr numHeads (dimAt ws 1).toNat = some (q, k, v))
    (hfail : env.packbSizeFn (q / numHeads) (dimAt ws 0).toNat = 0
           ∨ env.packbSizeFn (k / numHeads) (dimAt ws 0).toNat = 0
           ∨ env.packbSizeFn (v / numHeads) (dimAt ws 0).toNat = 0) :
    (prePack env junk numHeads attr ws 1 false initAttnOpState).state.packedWeights 0 = none
    ∧ (prePack env junk numHeads attr ws 1 false initAttnOpState).state.packedWeights 1 = none
    ∧ (prePack env junk numHeads attr ws 1 false initAttnOpState).state.packedWeights 2 = none
    ∧ (prePack env junk numHeads attr ws 1 false initAttnOpState).isPacked = false
    ∧ (prePack env junk numHeads attr ws 1 false initAttnOpState).state.isPrepack = false
    ∧ (prePack env junk numHeads attr ws 1 false initAttnOpState).statusOk = true := by
  have heq : attr.length = 0 → q = k ∧ k = v := by
    intro h0
    simp [prePackResolveSizes, h0] at hres
    omega
  simp only [prePack, hres, hws]
  by_cases hs0 : env.packbSizeFn (q / numHeads) (dimAt ws 0).toNat = 0
  · simp [isPackWeightsSuccessful, hs0, freePackedWeights, initAttnOpState]
  · by_cases hs1 : env.packbSizeFn (k / numHeads) (dimAt ws 0).toNat = 0
    · rcases hlen with hl0 | hl3
      · obtain ⟨hqk, hkv⟩ := heq hl0
        rw [hqk] at hs0
        exact absurd hs1 hs0
      · simp [isPackWeightsSuccessful, hs0, hs1, freePackedWeights, initAttnOpState, hl3]
    · by_cases hs2 : env.packbSizeFn (v / numHeads) (dimAt ws 0).toNat = 0
      · rcases hlen with hl0 | hl3
        · obtain ⟨hqk, hkv⟩ := heq hl0
          rw [hqk, hkv] at hs0
          exact absurd hs2 hs0
        · simp [isPackWeightsSuccessful, hs0, hs1, hs2, freePackedWeights, initAttnOpState, hl3]
      · rcases hfail with h | h | h
        · exact absurd h hs0
        · exact absurd h hs1
        · exact absurd h hs2

/-- Witness for C4: the equal-split configuration with a vendor size function
that reports 0, run at the weight slot. -/
theorem c4_prepack_failure_cleanup_witness :
    (prePack ⟨fun _ _ => 0, fun _ _ _ => none⟩ (fun _ => 7) 1 [] [1, 3] 1 false
        initAttnOpState).state.packedWeights 0 = none
    ∧ (prePack ⟨fun _ _ => 0, fun _ _ _ => none⟩ (fun _ => 7) 1 [] [1, 3] 1 false
        initAttnOpState).state.packedWeights 1 = none
    ∧ (prePack ⟨fun _ _ => 0, fun _ _ _ => none⟩ (fun _ => 7) 1 [] [1, 3] 1 false
        initAttnOpState).state.packedWeights 2 = none
    ∧ (prePack ⟨fun _ _ => 0, fun _ _ _ => none⟩ (fun _ => 7) 1 [] [1, 3] 1 false
        initAttnOpState).isPacked = false
    ∧ (prePack ⟨fun _ _ => 0, fun _ _ _ => none⟩ (fun _ => 7) 1 [] [1, 3] 1 false
        initAttnOpState).state.isPrepack = false
    ∧ (prePack ⟨fun _ _ => 0, fun _ _ _ => none⟩ (fun _ => 7) 1 [] [1, 3] 1 false
        initAttnOpState).statusOk = true :=
  c4_prepack_failure_cleanup ⟨fun _ _ => 0, fun _ _ _ => none⟩ (fun _ => 7) 1 [] [1, 3]
    1 1 1 (Or.inl rfl) rfl rfl (Or.inl rfl)

/-! Determinism of the packed buffers (the memset at attention.cc line 434
makes the buffer contents independent of whatever bytes the allocator
returned). -/

/-- The bytes of the allocated range after the memset / pack-loop sequence do
not depend on the junk contents the allocator returned. -/
theorem packAllHeads_junk_independent (packbSize numHeads : Nat)
    (packOut : Nat → Nat → Option Nat) (junkA junkB : ByteBuf) (p : Nat)
    (hp : p < packbSize * numHeads) :
    packAllHeads packbSize numHeads packOut junkA p
      = packAllHeads packbSize numHeads packOut junkB p := by
  have key : ∀ (l : List Nat) (m1 m2 : ByteBuf),
      (∀ r, r < packbSize * numHeads → m1 r = m2 r) →
      ∀ r, r < packbSize * numHeads →
        (l.foldl (fun mem i => packOneHead (packOut i) (i * packbSize) packbSize mem) m1) r
          = (l.foldl (fun mem i => packOneHead (packOut i) (i * packbSize) packbSize mem) m2) r := by
    intro l
    induction l with
    | nil => intro m1 m2 h r hr; exact h r hr
    | cons a t ih =>
      intro m1 m2 h r hr
      refine ih _ _ ?_ r hr
      intro s hs
      simp only [packOneHead]
      split
      · cases hpo : packOut a (s - a * packbSize) <;> simp [hpo, h s hs]
      · exact h s hs
  unfold packAllHeads
  exact key _ _ _ (fun r hr => by simp [memsetZero, hr]) p hp

/-- Invariant: every packed buffer held by the kernel state is the
deterministic pack of its recorded per-head size. -/
def packedBuffersCharacterized (env : PackEnv) (junk : ByteBuf) (numHeads : Nat)
    (st : AttnOpState) : Prop :=
  ∀ x b, st.packedWeights x = some b →
    b = packAllHeads (st.packedWeightsSize x) numHeads (env.packOutFn x) junk

/-- IsPackWeightsSuccessful preserves the characterization invariant. -/
theorem char_isPack (env : PackEnv) (junk : ByteBuf) (sh : Bool)
    (q hs d numHeads : Nat) (st : AttnOpState) (l : List ByteBuf)
    (hch : packedBuffersCharacterized env junk numHeads st) :
    packedBuffersCharacterized env junk numHeads
      (isPackWeightsSuccessful env junk sh q hs d numHeads st l).state := by
  simp only [isPackWeightsSuccessful]
  split
  · exact hch
  · split
    · intro x b hb
      dsimp only at hb ⊢
      by_cases hx : x = q
      · subst hx; simp at hb
      · simp only [if_neg hx] at hb ⊢
        exact hch x b hb
    · intro x b hb
      dsimp only at hb ⊢
      by_cases hx : x = q
      · subst hx
        rw [if_pos rfl] at hb
        rw [if_pos rfl]
        rw [Option.some.injEq] at hb
        exact hb.symm
      · simp only [if_neg hx] at hb ⊢
        exact hch x b hb

/-- The fresh kernel state satisfies the characterization invariant, with or
without the recorded weight shape. -/
theorem char_init (env : PackEnv) (junk : ByteBuf) (numHeads : Nat) (ws : Shape) :
    packedBuffersCharacterized env junk numHeads { initAttnOpState with weightShape := ws }
    ∧ packedBuffersCharacterized env junk numHeads initAttnOpState := by
  constructor <;> (intro x b hb; exact absurd hb (by simp [initAttnOpState]))

/-- FreePackedWeights preserves the characterization invariant. -/
theorem char_free (env : PackEnv) (junk : ByteBuf) (numHeads len : Nat)
    (st : AttnOpState) (hch : packedBuffersCharacterized env junk numHeads st) :
    packedBuffersCharacterized env junk numHeads
      { st with packedWeights := freePackedWeights st.packedWeights len } := by
  intro x b hb
  simp only [freePackedWeights] at hb
  split at hb
  · exact absurd hb (by simp)
  · exact hch x b hb

/-- Every packed buffer left on the kernel by a PrePack run from the fresh
state is the deterministic pack of its recorded per-head size. -/
theorem prePack_char (env : PackEnv) (junk : ByteBuf) (numHeads : Nat)
    (attr : List Int) (ws : Shape) (inputIdx : Nat) (shared : Bool) :
    packedBuffersCharacterized env junk numHeads
      (prePack env junk numHeads attr ws inputIdx shared initAttnOpState).state := by
  simp only [prePack]
  repeat' split
  all_goals first
    | exact (char_init env junk numHeads ws).2
    | exact (char_init env junk numHeads ws).1
    | exact char_free _ _ _ _ _ (char_isPack _ _ _ _ _ _ _ _ _
        ((char_init env junk numHeads ws).1))
    | exact char_free _ _ _ _ _ (char_isPack _ _ _ _ _ _ _ _ _
        (char_isPack _ _ _ _ _ _ _ _ _ ((char_init env junk numHeads ws).1)))
    | exact char_free _ _ _ _ _ (char_isPack _ _ _ _ _ _ _ _ _
        (char_isPack _ _ _ _ _ _ _ _ _ (char_isPack _ _ _ _ _ _ _ _ _
          ((char_init env junk numHeads ws).1))))
    | exact char_isPack _ _ _ _ _ _ _ _ _ ((char_init env junk numHeads ws).1)
    | exact char_isPack _ _ _ _ _ _ _ _ _ (char_isPack _ _ _ _ _ _ _ _ _
        ((char_init env junk numHeads ws).1))
    | exact char_isPack _ _ _ _ _ _ _ _ _ (char_isPack _ _ _ _ _ _ _ _ _
        (char_isPack _ _ _ _ _ _ _ _ _ ((char_init env junk numHeads ws).1)))

/-- The per-head packed sizes recorded by a PrePack run from the fresh state do
not depend on the allocator junk. -/
theorem prePack_sizes_junk_independent (env : PackEnv) (junkA junkB : ByteBuf)
    (numHeads : Nat) (attr : List Int) (ws : Shape) (inputIdx : Nat) (shared : Bool) :
    (prePack env junkA numHeads attr ws inputIdx shared initAttnOpState).state.packedWeightsSize
      = (prePack env junkB numHeads attr ws inputIdx shared initAttnOpState).state.packedWeightsSize := by
  cases shared <;>
  · simp only [prePack]
    by_cases h1 : inputIdx ≠ 1
    · simp [h1]
    · rw [if_neg h1, if_neg h1]
      by_cases h2 : ws.length ≠ 2
      · simp [h2]
      · rw [if_neg h2, if_neg h2]
        cases hres : prePackResolveSizes attr numHeads (dimAt ws 1).toNat with
        | none => rfl
        | some qkv =>
          obtain ⟨q, k, v⟩ := qkv
          by_cases hs0 : env.packbSizeFn (q / numHeads) (dimAt ws 0).toNat = 0
          · simp [isPackWeightsSuccessful, hs0]
          · by_cases hs1 : env.packbSizeFn (k / numHeads) (dimAt ws 0).toNat = 0
            · simp [isPackWeightsSuccessful, isPack_sizes, hs0, hs1]
            · by_cases hs2 : env.packbSizeFn (v / numHeads) (dimAt ws 0).toNat = 0
              · simp [isPackWeightsSuccessful, isPack_sizes, hs0, hs1, hs2]
              · simp [isPackWeightsSuccessful, isPack_sizes, hs0, hs1, hs2]

/-- C9: pre-packing is deterministic.  Two PrePack runs with the same vendor
routines and weight content (the same PackEnv — the vendor pack output is a
pure function of the weight content) but different allocator junk record the
same per-head packed sizes and produce byte-identical buffers over the whole
allocated range packb_size * num_heads, padding included, because each buffer
is zero-initialized over its full allocated size before the per-head pack
routines write into it. -/
theorem c9_prepack_deterministic (env : PackEnv) (junkA junkB : ByteBuf)
    (numHeads : Nat) (attr : List Int) (ws : Shape) (inputIdx : Nat)
    (shared : Bool) (x p : Nat) (bA bB : ByteBuf)
    (hA : (prePack env junkA numHeads attr ws inputIdx shared
            initAttnOpState).state.packedWeights x = some bA)
    (hB : (prePack env junkB numHeads attr ws inputIdx shared
            initAttnOpState).state.packedWeights x = some bB)
    (hp : p < (prePack env junkA numHeads attr ws inputIdx shared
            initAttnOpState).state.packedWeightsSize x * numHeads) :
    bA p = bB p := by
  have eA := prePack_char env junkA numHeads attr ws inputIdx shared x bA hA
  have eB := prePack_char env junkB numHeads attr ws inputIdx shared x bB hB
  have hs := congrFun
    (prePack_sizes_junk_independent env junkA junkB numHeads attr ws inputIdx shared) x
  rw [eA, eB, ← hs]
  exact packAllHeads_junk_independent _ _ _ _ _ p hp

/-- Witness for C9: two runs over the same trivial vendor routines with
different allocator junk agree on byte 0 of the packed Q buffer. -/
theorem c9_prepack_deterministic_witness :
    packAllHeads 1 1 (fun _ _ => none) (fun _ => 7) 0
      = packAllHeads 1 1 (fun _ _ => none) (fun _ => 9) 0 :=
  c9_prepack_deterministic ⟨fun _ _ => 1, fun _ _ _ => none⟩ (fun _ => 7) (fun _ => 9)
    1 [] [1, 3] 1 false 0 0
    (packAllHeads 1 1 (fun _ _ => none) (fun _ => 7))
    (packAllHeads 1 1 (fun _ _ => none) (fun _ => 9))
    rfl rfl (by decide)

/-! The parallel Q/K/V projection inside Attention.Compute
(attention.cc lines 610-705). -/

/-- A numeric buffer: rational contents by flat element offset (the source
works in single precision; the exact-arithmetic model uses rationals). -/
abbrev Buf := Nat → ℚ

/-- The shape and mode parameters of the projection fan-out, after Compute has
resolved batch, sequence, input-hidden, head-count and the three hidden sizes
(attention.cc lines 569-605). -/
structure ProjParams where
  batchSize : Nat
  sequenceLength : Nat
  inputHiddenSize : Nat
  numHeads : Nat
  qHiddenSize : Nat
  kHiddenSize : Nat
  vHiddenSize : Nat
  isPrepack : Bool

/-- qkv_head_size[x] (attention.cc line 605). -/
def qkvHeadSize (pp : ProjParams) (x : Nat) : Nat :=
  if x = 0 then pp.qHiddenSize / pp.numHeads
  else if x = 1 then pp.kHiddenSize / pp.numHeads
  else pp.vHiddenSize / pp.numHeads

/-- The bias broadcast loop (attention.cc lines 655-661): every row s of the
destination window receives the headSize-long bias slice at biasOffset, i.e.
position qkvOffset + s*headSize + j receives biasData (biasOffset + j). -/
def biasBroadcast (dst biasData : Buf) (biasOffset qkvOffset headSize sequenceLength : Nat) :
    Buf :=
  fun p =>
    if qkvOffset ≤ p ∧ p < qkvOffset + sequenceLength * headSize then
      biasData (biasOffset + (p - qkvOffset) % headSize)
    else dst p

/-- The vendor multiply contract shared by MlasGemm on a packed B and
math::GemmEx on a strided B (attention.cc lines 667-702), with
alpha = beta = 1 and ldc = n: on the m x n destination window at cOffset,
C[s, j] += sum over d < k of A[s, d] * B[d, j], reading A at aOffset with
leading dimension lda. -/
def gemmAccumulate (c a : Buf) (aOffset lda : Nat) (bMat : Nat → Nat → ℚ)
    (m n k cOffset : Nat) : Buf :=
  fun p =>
    if cOffset ≤ p ∧ p < cOffset + m * n then
      c p + ∑ d in Finset.range k,
        a (aOffset + ((p - cOffset) / n) * lda + d) * bMat d ((p - cOffset) % n)
    else c p

/-- One work unit of the fan-out (attention.cc lines 633-703): decodes
(batch, head, branch) from the virtual index i, broadcasts the bias slice over
the destination window, then accumulates the matrix product onto it.
packedWeights x i2 d j is the (d, j) element of the matrix packed into
sub-buffer i2 of branch x (the packed path multiplies against the sub-buffer
at packed_weights_size_[x] * (weights_offset / head_size)). -/
def projUnit (pp : ProjParams) (inputData weightsData biasData : Buf)
    (packedWeights : Nat → Nat → Nat → Nat → ℚ) (qkv : Nat → Buf) (i : Nat) :
    Nat → Buf :=
  let batchIndex := (i / 3) / pp.numHeads
  let headIndex := (i / 3) % pp.numHeads
  let qkvIndex := i % 3
  let inputOffset := batchIndex * pp.sequenceLength * pp.inputHiddenSize
  let headSize := qkvHeadSize pp qkvIndex
  let biasOffset := qkvIndex * pp.qHiddenSize + headIndex * headSize
  let weightsOffset := if pp.isPrepack then headIndex * headSize else biasOffset
  let qkvOffset := (batchIndex * pp.numHeads + headIndex) * (pp.sequenceLength * headSize)
  let withBias := biasBroadcast (qkv qkvIndex) biasData biasOffset qkvOffset headSize
    pp.sequenceLength
  let bMat : Nat → Nat → ℚ :=
    if pp.isPrepack then packedWeights qkvIndex (weightsOffset / headSize)
    else fun d j =>
      weightsData (d * (pp.qHiddenSize + pp.kHiddenSize + pp.vHiddenSize) + weightsOffset + j)
  let written := gemmAccumulate withBias inputData inputOffset pp.inputHiddenSize bMat
    pp.sequenceLength headSize pp.inputHiddenSize qkvOffset
  fun x => if x = qkvIndex then written else qkv x

/-- The whole fan-out (attention.cc line 632: TryParallelFor over
loop_len = 3 * batch_size * num_heads): every unit executes exactly once and
distinct units write disjoint windows, so the parallel execution is modelled
by executing the units in index order. -/
def runProjection (pp : ProjParams) (inputData weightsData biasData : Buf)
    (packedWeights : Nat → Nat → Nat → Nat → ℚ) (qkvInit : Nat → Buf) : Nat → Buf :=
  (List.range (3 * pp.batchSize * pp.numHeads)).foldl
    (projUnit pp inputData weightsData biasData packedWeights) qkvInit

/-- The matrix content MlasGemmPackB packed into sub-buffer i of branch x, per
the source pointers of PrePack (attention.cc lines 438-441 and 507-514):
branch column bases 0, numHeads * headSize0, numHeads * (headSize0 +
headSize1); each head advances by the branch head size; ldb =
weight_matrix_col_size. -/
def prepackedWeightSlice (weightsData : Buf) (numHeads headSize0 headSize1 headSize2
    weightMatrixColSize : Nat) : Nat → Nat → Nat → Nat → ℚ :=
  fun x i d j =>
    let base := if x = 0 then 0
                else if x = 1 then numHeads * headSize0
                else numHeads * (headSize0 + headSize1)
    let hx := if x = 0 then headSize0 else if x = 1 then headSize1 else headSize2
    weightsData (base + i * hx + d * weightMatrixColSize + j)

/-- The start of branch x within the bias vector and within a weight row:
0 for Q, hidden_q for K, hidden_q + hidden_k for V. -/
def branchStart (pp : ProjParams) (x : Nat) : Nat :=
  if x = 0 then 0 else if x = 1 then pp.qHiddenSize else pp.qHiddenSize + pp.kHiddenSize

/-- Arithmetic of the row-major window layout: column recovery. -/
theorem row_col_mod (s j H : Nat) (hj : j < H) : (s * H + j) % H = j := by
  rw [Nat.mul_comm, Nat.mul_add_mod]
  exact Nat.mod_eq_of_lt hj

/-- Arithmetic of the row-major window layout: row recovery. -/
theorem row_col_div (s j H : Nat) (hj : j < H) : (s * H + j) / H = s := by
  have hH : 0 < H := by omega
  rw [Nat.add_comm, Nat.mul_comm, Nat.add_mul_div_left _ _ hH, Nat.div_eq_of_lt hj,
    Nat.zero_add]

/-- Arithmetic of the row-major window layout: cells stay inside the window. -/
theorem row_col_lt (s j S H : Nat) (hs : s < S) (hj : j < H) :
    s * H + j < S * H := by
  have h1 : s * H + j < (s + 1) * H := by rw [Nat.succ_mul]; omega
  exact lt_of_lt_of_le h1 (Nat.mul_le_mul_right H hs)

/-- Value lemma: one work unit writes cell (s, j) of its destination window
with bias (biasOffset + j) plus the dot product of input row s against weight
column (weightsOffset + j), for the unpacked path. -/
theorem projUnit_value (pp : ProjParams) (inputData weightsData biasData : Buf)
    (packedWeights : Nat → Nat → Nat → Nat → ℚ) (qkv : Nat → Buf) (i s j : Nat)
    (hpre : pp.isPrepack = false)
    (hs : s < pp.sequenceLength) (hj : j < qkvHeadSize pp (i % 3)) :
    projUnit pp inputData weightsData biasData packedWeights qkv i (i % 3)
        ((i / 3) * (pp.sequenceLength * qkvHeadSize pp (i % 3))
          + s * qkvHeadSize pp (i % 3) + j)
      = biasData ((i % 3) * pp.qHiddenSize
            + ((i / 3) % pp.numHeads) * qkvHeadSize pp (i % 3) + j)
        + ∑ d in Finset.range pp.inputHiddenSize,
            inputData (((i / 3) / pp.numHeads) * pp.sequenceLength * pp.inputHiddenSize
                + s * pp.inputHiddenSize + d)
              * weightsData (d * (pp.qHiddenSize + pp.kHiddenSize + pp.vHiddenSize)
                  + ((i % 3) * pp.qHiddenSize
                    + ((i / 3) % pp.numHeads) * qkvHeadSize pp (i % 3)) + j) := by
  have hH : 0 < qkvHeadSize pp (i % 3) := by omega
  have hdm : (i / 3) / pp.numHeads * pp.numHeads + (i / 3) % pp.numHeads = i / 3 :=
    Nat.div_add_mod' _ _
  have hwin : s * qkvHeadSize pp (i % 3) + j
      < pp.sequenceLength * qkvHeadSize pp (i % 3) := row_col_lt _ _ _ _ hs hj
  simp only [projUnit, hpre, Bool.false_eq_true, if_false, if_pos rfl, hdm]
  have hcond : i / 3 * (pp.sequenceLength * qkvHeadSize pp (i % 3))
        ≤ i / 3 * (pp.sequenceLength * qkvHeadSize pp (i % 3))
          + s * qkvHeadSize pp (i % 3) + j
      ∧ i / 3 * (pp.sequenceLength * qkvHeadSize pp (i % 3))
          + s * qkvHeadSize pp (i % 3) + j
        < i / 3 * (pp.sequenceLength * qkvHeadSize pp (i % 3))
          + pp.sequenceLength * qkvHeadSize pp (i % 3) := by
    constructor
    · exact le_trans (Nat.le_add_right _ _) (Nat.le_add_right _ _)
    · rw [Nat.add_assoc]
      exact Nat.add_lt_add_left hwin _
  have hsub : i / 3 * (pp.sequenceLength * qkvHeadSize pp (i % 3))
        + s * qkvHeadSize pp (i % 3) + j
      - i / 3 * (pp.sequenceLength * qkvHeadSize pp (i % 3))
      = s * qkvHeadSize pp (i % 3) + j := by
    rw [Nat.add_assoc, Nat.add_sub_cancel_left]
  simp only [gemmAccumulate, biasBroadcast, if_pos hcond, hsub,
    row_col_div _ _ _ hj, row_col_mod _ _ _ hj]

/-- Frame lemma: a work unit leaves every position outside its destination
window, and every other branch buffer, unchanged. -/
theorem projUnit_frame (pp : ProjParams) (inputData weightsData biasData : Buf)
    (packedWeights : Nat → Nat → Nat → Nat → ℚ) (qkv : Nat → Buf) (i x p : Nat)
    (h : x ≠ i % 3
       ∨ p < (i / 3) * (pp.sequenceLength * qkvHeadSize pp (i % 3))
       ∨ (i / 3) * (pp.sequenceLength * qkvHeadSize pp (i % 3))
           + pp.sequenceLength * qkvHeadSize pp (i % 3) ≤ p) :
    projUnit pp inputData weightsData biasData packedWeights qkv i x p = qkv x p := by
  have hdm : (i / 3) / pp.numHeads * pp.numHeads + (i / 3) % pp.numHeads = i / 3 :=
    Nat.div_add_mod' _ _
  simp only [projUnit, hdm]
  by_cases hx : x = i % 3
  · subst hx
    rw [if_pos rfl]
    have hout : p < (i / 3) * (pp.sequenceLength * qkvHeadSize pp (i % 3))
        ∨ (i / 3) * (pp.sequenceLength * qkvHeadSize pp (i % 3))
            + pp.sequenceLength * qkvHeadSize pp (i % 3) ≤ p := by
      rcases h with hh | hh
      · exact absurd rfl hh
      · exact hh
    have hnot : ¬((i / 3) * (pp.sequenceLength * qkvHeadSize pp (i % 3)) ≤ p
        ∧ p < (i / 3) * (pp.sequenceLength * qkvHeadSize pp (i % 3))
            + pp.sequenceLength * qkvHeadSize pp (i % 3)) := by
      intro hc
      rcases hout with hh | hh
      · exact absurd hc.1 (Nat.not_le.mpr hh)
      · exact absurd hc.2 (Nat.not_lt.mpr hh)
    simp only [gemmAccumulate, biasBroadcast, if_neg hnot]
  · rw [if_neg hx]

/-- A run of work units none of which covers (x, p) leaves (x, p) unchanged. -/
theorem foldl_projUnit_untouched (pp : ProjParams)
    (inputData weightsData biasData : Buf)
    (packedWeights : Nat → Nat → Nat → Nat → ℚ)
    (l : List Nat) (qkv : Nat → Buf) (x p : Nat)
    (h : ∀ i2, i2 ∈ l → x ≠ i2 % 3
       ∨ p < (i2 / 3) * (pp.sequenceLength * qkvHeadSize pp (i2 % 3))
       ∨ (i2 / 3) * (pp.sequenceLength * qkvHeadSize pp (i2 % 3))
           + pp.sequenceLength * qkvHeadSize pp (i2 % 3) ≤ p) :
    (l.foldl (projUnit pp inputData weightsData biasData packedWeights) qkv) x p
      = qkv x p := by
  induction l generalizing qkv with
  | nil => rfl
  | cons a t ih =>
    rw [List.foldl_cons]
    rw [ih _ (fun i2 hi2 => h i2 (List.mem_cons_of_mem _ hi2))]
    exact projUnit_frame pp inputData weightsData biasData packedWeights qkv a x p
      (h a (List.mem_cons_self _ _))

/-- C2: for every valid unpacked merged-weight configuration (hidden_q =
hidden_k, positive window sizes implied by the bounds on s and j), every work
unit i < 3 * batch * num_heads of the fan-out — decoded as
branch = i mod 3, head = (i div 3) mod num_heads,
batch = (i div 3) div num_heads — leaves in its disjoint destination window
exactly the (branch, head) bias slice broadcast over the sequence rows plus
input[batch] times the (branch, head) weight slice of the merged weight with
column stride hidden_q + hidden_k + hidden_v, i.e.
result = bias + input * weight at every cell (row s, column j). -/
theorem c2_projection_fanout_correct (pp : ProjParams)
    (inputData weightsData biasData : Buf)
    (packedWeights : Nat → Nat → Nat → Nat → ℚ) (qkvInit : Nat → Buf)
    (hpre : pp.isPrepack = false)
    (hqk : pp.qHiddenSize = pp.kHiddenSize)
    (i : Nat) (hi : i < 3 * pp.batchSize * pp.numHeads)
    (s j : Nat) (hs : s < pp.sequenceLength) (hj : j < qkvHeadSize pp (i % 3)) :
    runProjection pp inputData weightsData biasData packedWeights qkvInit (i % 3)
        ((i / 3) * (pp.sequenceLength * qkvHeadSize pp (i % 3))
          + s * qkvHeadSize pp (i % 3) + j)
      = biasData (branchStart pp (i % 3)
            + ((i / 3) % pp.numHeads) * qkvHeadSize pp (i % 3) + j)
        + ∑ d in Finset.range pp.inputHiddenSize,
            inputData (((i / 3) / pp.numHeads) * pp.sequenceLength * pp.inputHiddenSize
                + s * pp.inputHiddenSize + d)
              * weightsData (d * (pp.qHiddenSize + pp.kHiddenSize + pp.vHiddenSize)
                  + (branchStart pp (i % 3)
                    + ((i / 3) % pp.numHeads) * qkvHeadSize pp (i % 3)) + j) := by
  have hbs : branchStart pp (i % 3) = (i % 3) * pp.qHiddenSize := by
    have h3 : i % 3 = 0 ∨ i % 3 = 1 ∨ i % 3 = 2 := by omega
    rcases h3 with h | h | h <;> (simp [branchStart, h, hqk]; try ring)
  rw [hbs]
  unfold runProjection
  have hsplit : 3 * pp.batchSize * pp.numHeads
      = (i + 1) + (3 * pp.batchSize * pp.numHeads - (i + 1)) := by omega
  rw [hsplit, List.range_add, List.foldl_append, List.range_succ, List.foldl_append,
    List.foldl_cons, List.foldl_nil]
  rw [foldl_projUnit_untouched]
  · exact projUnit_value pp inputData weightsData biasData packedWeights _ i s j hpre hs hj
  · intro i2 hi2
    rw [List.mem_map] at hi2
    obtain ⟨t, ht, rfl⟩ := hi2
    by_cases hx : i % 3 = (i + 1 + t) % 3
    · right; left
      have hHeq : qkvHeadSize pp ((i + 1 + t) % 3) = qkvHeadSize pp (i % 3) := by rw [← hx]
      have hm : i / 3 + 1 ≤ (i + 1 + t) / 3 := by omega
      have hwin : s * qkvHeadSize pp (i % 3) + j
          < pp.sequenceLength * qkvHeadSize pp (i % 3) := row_col_lt _ _ _ _ hs hj
      rw [hHeq]
      calc i / 3 * (pp.sequenceLength * qkvHeadSize pp (i % 3))
            + s * qkvHeadSize pp (i % 3) + j
          < (i / 3 + 1) * (pp.sequenceLength * qkvHeadSize pp (i % 3)) := by
            rw [Nat.succ_mul, Nat.add_assoc]
            exact Nat.add_lt_add_left hwin _
        _ ≤ (i + 1 + t) / 3 * (pp.sequenceLength * qkvHeadSize pp (i % 3)) :=
            Nat.mul_le_mul_right _ hm
    · left; exact hx

/-- Concrete one-element fixture for the C2 witness. -/
def c2wParams : ProjParams := ⟨1, 1, 1, 1, 1, 1, 1, false⟩

/-- All-ones buffer used by the witnesses. -/
def oneBuf : Buf := fun _ => 1

/-- Dummy packed-weight accessor for unpacked-path witnesses. -/
def zeroPacked : Nat → Nat → Nat → Nat → ℚ := fun _ _ _ _ => 0

/-- All-zero initial scratch buffers for the witnesses. -/
def zeroQkv : Nat → Buf := fun _ _ => 0

/-- Witness for C2 at the one-batch, one-head, one-element configuration, unit
i = 0 (the Q branch). -/
theorem c2_projection_fanout_correct_witness :
    runProjection c2wParams oneBuf oneBuf oneBuf zeroPacked zeroQkv (0 % 3)
        ((0 / 3) * (c2wParams.sequenceLength * qkvHeadSize c2wParams (0 % 3))
          + 0 * qkvHeadSize c2wParams (0 % 3) + 0)
      = oneBuf (branchStart c2wParams (0 % 3)
            + ((0 / 3) % c2wParams.numHeads) * qkvHeadSize c2wParams (0 % 3) + 0)
        + ∑ d in Finset.range c2wParams.inputHiddenSize,
            oneBuf (((0 / 3) / c2wParams.numHeads) * c2wParams.sequenceLength
                * c2wParams.inputHiddenSize + 0 * c2wParams.inputHiddenSize + d)
              * oneBuf (d * (c2wParams.qHiddenSize + c2wParams.kHiddenSize
                    + c2wParams.vHiddenSize)
                  + (branchStart c2wParams (0 % 3)
                    + ((0 / 3) % c2wParams.numHeads) * qkvHeadSize c2wParams (0 % 3)) + 0) :=
  c2_projection_fanout_correct c2wParams oneBuf oneBuf oneBuf zeroPacked zeroQkv rfl rfl
    0 (by decide) 0 0 (by decide) (by decide)

/-- On a valid configuration each packed-path work unit computes exactly what
the corresponding unpacked-path unit computes, because the sub-buffer packed
for (branch, head) holds precisely the weight columns the strided multiply
reads. -/
theorem projUnit_packed_eq_unpacked (pp : ProjParams)
    (inputData weightsData biasData : Buf)
    (dummyPacked : Nat → Nat → Nat → Nat → ℚ)
    (hpre : pp.isPrepack = true)
    (hqk : pp.qHiddenSize = pp.kHiddenSize)
    (hq : pp.numHeads * (pp.qHiddenSize / pp.numHeads) = pp.qHiddenSize)
    (hH : ∀ x, x < 3 → 0 < qkvHeadSize pp x)
    (qkv : Nat → Buf) (i : Nat) :
    projUnit pp inputData weightsData biasData
        (prepackedWeightSlice weightsData pp.numHeads (qkvHeadSize pp 0)
          (qkvHeadSize pp 1) (qkvHeadSize pp 2)
          (pp.qHiddenSize + pp.kHiddenSize + pp.vHiddenSize)) qkv i
      = projUnit { pp with isPrepack := false } inputData weightsData biasData
          dummyPacked qkv i := by
  have hHpos : 0 < qkvHeadSize pp (i % 3) := hH _ (Nat.mod_lt _ (by norm_num))
  have hdivH : (i / 3) % pp.numHeads * qkvHeadSize pp (i % 3) / qkvHeadSize pp (i % 3)
      = (i / 3) % pp.numHeads := Nat.mul_div_cancel _ hHpos
  have hbase : (if i % 3 = 0 then 0
        else if i % 3 = 1 then pp.numHeads * qkvHeadSize pp 0
        else pp.numHeads * (qkvHeadSize pp 0 + qkvHeadSize pp 1))
      = (i % 3) * pp.qHiddenSize := by
    have h3 : i % 3 = 0 ∨ i % 3 = 1 ∨ i % 3 = 2 := by omega
    rcases h3 with h | h | h <;>
      (simp only [h, Nat.mul_add]; simp [qkvHeadSize, hq, ← hqk]; try ring)
  have hslice : prepackedWeightSlice weightsData pp.numHeads (qkvHeadSize pp 0)
        (qkvHeadSize pp 1) (qkvHeadSize pp 2)
        (pp.qHiddenSize + pp.kHiddenSize + pp.vHiddenSize) (i % 3)
        ((i / 3) % pp.numHeads)
      = fun d j => weightsData
          (d * (pp.qHiddenSize + pp.kHiddenSize + pp.vHiddenSize)
            + ((i % 3) * pp.qHiddenSize
              + (i / 3) % pp.numHeads * qkvHeadSize pp (i % 3)) + j) := by
    funext d j
    simp only [prepackedWeightSlice]
    have hhx : (if i % 3 = 0 then qkvHeadSize pp 0
          else if i % 3 = 1 then qkvHeadSize pp 1 else qkvHeadSize pp 2)
        = qkvHeadSize pp (i % 3) := by
      have h3 : i % 3 = 0 ∨ i % 3 = 1 ∨ i % 3 = 2 := by omega
      rcases h3 with h | h | h <;> simp [h]
    rw [hbase, hhx]
    congr 1
    ring
  have hqkvh : qkvHeadSize { pp with isPrepack := false } = qkvHeadSize pp := by
    funext x
    simp [qkvHeadSize]
  simp [projUnit, hpre, hdivH, hslice, hqkvh]

/-- C3: on every valid configuration (hidden_q = hidden_k, num_heads dividing
hidden_q, positive head sizes), the packed path — multiplying each unit
against the per-head sub-buffer that PrePack filled from the corresponding
column slice of the raw weight, selected at offset head_index times the
per-head packed size — produces exactly the same Q/K/V buffers, at every
position, as the unpacked path with its general strided multiply against the
raw weight with column stride hidden_q + hidden_k + hidden_v. -/
theorem c3_packed_equals_unpacked (pp : ProjParams)
    (inputData weightsData biasData : Buf)
    (dummyPacked : Nat → Nat → Nat → Nat → ℚ) (qkvInit : Nat → Buf)
    (hpre : pp.isPrepack = true)
    (hqk : pp.qHiddenSize = pp.kHiddenSize)
    (hq : pp.numHeads * (pp.qHiddenSize / pp.numHeads) = pp.qHiddenSize)
    (hH : ∀ x, x < 3 → 0 < qkvHeadSize pp x)
    (x p : Nat) :
    runProjection pp inputData weightsData biasData
        (prepackedWeightSlice weightsData pp.numHeads (qkvHeadSize pp 0)
          (qkvHeadSize pp 1) (qkvHeadSize pp 2)
          (pp.qHiddenSize + pp.kHiddenSize + pp.vHiddenSize)) qkvInit x p
      = runProjection { pp with isPrepack := false } inputData weightsData biasData
          dummyPacked qkvInit x p := by
  have hu : projUnit pp inputData weightsData biasData
        (prepackedWeightSlice weightsData pp.numHeads (qkvHeadSize pp 0)
          (qkvHeadSize pp 1) (qkvHeadSize pp 2)
          (pp.qHiddenSize + pp.kHiddenSize + pp.vHiddenSize))
      = projUnit { pp with isPrepack := false } inputData weightsData biasData
          dummyPacked := by
    funext qkv i
    exact projUnit_packed_eq_unpacked pp inputData weightsData biasData dummyPacked
      hpre hqk hq hH qkv i
  simp only [runProjection]
  rw [hu]

/-- Concrete one-element fixture for the C3 witness. -/
def c3wParams : ProjParams := ⟨1, 1, 1, 1, 1, 1, 1, true⟩

/-- Witness for C3 at the one-batch, one-head, one-element packed
configuration. -/
theorem c3_packed_equals_unpacked_witness :
    runProjection c3wParams oneBuf oneBuf oneBuf
        (prepackedWeightSlice oneBuf c3wParams.numHeads (qkvHeadSize c3wParams 0)
          (qkvHeadSize c3wParams 1) (qkvHeadSize c3wParams 2)
          (c3wParams.qHiddenSize + c3wParams.kHiddenSize + c3wParams.vHiddenSize))
        zeroQkv 0 0
      = runProjection { c3wParams with isPrepack := false } oneBuf oneBuf oneBuf
          zeroPacked zeroQkv 0 0 :=
  c3_packed_equals_unpacked c3wParams oneBuf oneBuf oneBuf zeroPacked zeroQkv rfl rfl
    (by decide)
    (by
      intro x hx
      have h3 : x = 0 ∨ x = 1 ∨ x = 2 := by omega
      rcases h3 with h | h | h <;> subst h <;> decide)
    0 0
